import Mathlib

/-!
Verification development for the per-component hooks update engine
(ReactFiberHooks and its mutable-source reader).  The JavaScript source is
embedded shallowly: the circular singly-linked lists of the source (update
queues, hook lists, effect lists) are represented as Lean lists in
first-to-last order (the source keeps a pointer to the last node, whose
next field is the first), module-level mutable variables become explicit
arguments and results, lane bitmasks become Nat, and function identity
(needed for the eagerReducer and lastRenderedReducer comparisons, which the
source performs with reference equality) is represented by a numeric
reducer id resolved through a fixed environment of reducers.
-/

/-- Value type used to instantiate the generic state and action parameters
in concrete witnesses.  The nan constructor models the IEEE NaN value as a
distinguished atom, so decidable equality on JSVal coincides with the
identity-with-NaN-equal comparison implemented by the objectIs module. -/
inductive JSVal where
  | int : Int → JSVal
  | nan : JSVal
  | str : String → JSVal
  | bool : Bool → JSVal
  | null : JSVal
  deriving DecidableEq, Repr

/-- Model of the objectIs module (the Object.is polyfill): a strict
identity comparison under which NaN equals NaN.  On the value types used
here this is exactly decidable equality; on JSVal in particular
objectIs JSVal.nan JSVal.nan is true. -/
def objectIs {α : Type} [DecidableEq α] (x y : α) : Bool :=
  decide (x = y)

/-- ReactFiberLane NoLane: the empty lane. -/
def NoLane : Nat := 0

/-- ReactFiberLane NoLanes: the empty lane set. -/
def NoLanes : Nat := 0

/-- ReactFiberLane isSubsetOfLanes: (set & subset) === subset. -/
def isSubsetOfLanes (set subset : Nat) : Bool :=
  (set &&& subset) == subset

/-- ReactFiberLane mergeLanes: bitwise union. -/
def mergeLanes (a b : Nat) : Nat := a ||| b

/-- ReactHookEffectTags HasEffect flag bit. -/
def HookHasEffect : Nat := 1

/-- ReactHookEffectTags Layout flag bit. -/
def HookLayout : Nat := 2

/-- ReactHookEffectTags Passive flag bit. -/
def HookPassive : Nat := 4

/-- An Update record of the hooks update queue.  The source stores the two
nullable fields eagerReducer and eagerState, always written together by
dispatchAction; the pair is modelled as one optional field holding the
reducer id and the eagerly computed state.  The circular next pointer is
represented by list position. -/
structure Update (S A : Type) where
  lane : Nat
  action : A
  eager : Option (Nat × S)
  deriving DecidableEq

/-- The UpdateQueue owned by a reducer hook.  pending holds the circular
pending list in enqueue order; dispatch is a bound function and carries no
state, so it is omitted.  lastRenderedReducer is a nullable reducer
identity. -/
structure UpdateQueue (S A : Type) where
  pending : List (Update S A)
  lastRenderedReducer : Option Nat
  lastRenderedState : S
  deriving DecidableEq

/-- The per-hook state read and written by updateReducer: memoizedState,
baseState and the carried-over baseQueue. -/
structure ReducerHook (S A : Type) where
  memoizedState : S
  baseState : S
  baseQueue : List (Update S A)
  deriving DecidableEq

/-- Processing of one update inside the updateReducer loop: if the update
was processed eagerly and its reducer matches the current reducer, the
eagerly computed state is used; otherwise the reducer is invoked on the
accumulated state and the action. -/
def applyUpdate {S A : Type} (reducers : Nat → S → A → S) (rid : Nat)
    (s : S) (u : Update S A) : S :=
  match u.eager with
  | some (eagerReducer, eagerState) =>
      if eagerReducer = rid then eagerState else reducers rid s u.action
  | none => reducers rid s u.action

/-- Accumulator of the updateReducer walk: the accumulating state, the new
base state and new base queue once a first update has been skipped (none
while nothing has been skipped), and the lanes of skipped updates (merged
into the fiber lanes and reported through markSkippedUpdateLanes). -/
structure WalkAcc (S A : Type) where
  newState : S
  newBase : Option (S × List (Update S A))
  skippedLanes : Nat
  deriving DecidableEq

/-- Clone of an update with its lane cleared to NoLane, as built for an
applied update that follows a skipped one. -/
def clearLane {S A : Type} (u : Update S A) : Update S A :=
  { u with lane := NoLane }

/-- One iteration of the do-while loop in updateReducer.  A skipped update
(lane not a subset of the render lanes) is cloned and appended to the new
base queue, recording the state just before it if it is the first skip; an
applied update advances the state and, if something was skipped earlier, is
also appended as a lane-cleared clone. -/
def stepUpdate {S A : Type} (reducers : Nat → S → A → S) (rid renderLanes : Nat)
    (acc : WalkAcc S A) (u : Update S A) : WalkAcc S A :=
  if isSubsetOfLanes renderLanes u.lane = false then
    match acc.newBase with
    | none =>
        { newState := acc.newState,
          newBase := some (acc.newState, [u]),
          skippedLanes := mergeLanes acc.skippedLanes u.lane }
    | some (bs, q) =>
        { newState := acc.newState,
          newBase := some (bs, q ++ [u]),
          skippedLanes := mergeLanes acc.skippedLanes u.lane }
  else
    let s := applyUpdate reducers rid acc.newState u
    match acc.newBase with
    | none =>
        { newState := s, newBase := none, skippedLanes := acc.skippedLanes }
    | some (bs, q) =>
        { newState := s,
          newBase := some (bs, q ++ [clearLane u]),
          skippedLanes := acc.skippedLanes }

/-- The full walk of the combined base-plus-pending queue performed by
updateReducer, starting from the base state. -/
def walkUpdates {S A : Type} (reducers : Nat → S → A → S) (rid renderLanes : Nat)
    (baseState : S) (queue : List (Update S A)) : WalkAcc S A :=
  queue.foldl (stepUpdate reducers rid renderLanes)
    { newState := baseState, newBase := none, skippedLanes := NoLanes }

/-- Everything updateReducer writes or returns.  hook is the
work-in-progress hook after the call; queue is the shared UpdateQueue
after the call; currentBaseQueue is the committed hook baseQueue after the
call (the source splices the pending list onto it in place);
skippedLanes are the lanes merged into the rendering fiber lanes and
reported through markSkippedUpdateLanes; returnedState is the state the
hook call returns. -/
structure URResult (S A : Type) where
  hook : ReducerHook S A
  queue : UpdateQueue S A
  currentBaseQueue : List (Update S A)
  skippedLanes : Nat
  returnedState : S
  deriving DecidableEq

/-- Model of updateReducer.  The hook argument is the work-in-progress
hook, freshly cloned from the committed hook by updateWorkInProgressHook,
so its fields equal the committed fields when the call starts. -/
def updateReducer {S A : Type} (reducers : Nat → S → A → S) (rid renderLanes : Nat)
    (hook : ReducerHook S A) (queue : UpdateQueue S A) : URResult S A :=
  let queue1 : UpdateQueue S A := { queue with lastRenderedReducer := some rid }
  -- Splice the pending queue onto the carried-over base queue.  The source
  -- stores the merged circular list back into current.baseQueue and clears
  -- queue.pending (a write to the committed objects).
  let baseQueue := hook.baseQueue ++ queue1.pending
  let queue2 : UpdateQueue S A := { queue1 with pending := [] }
  if baseQueue.isEmpty then
    { hook := hook, queue := queue2, currentBaseQueue := baseQueue,
      skippedLanes := NoLanes, returnedState := hook.memoizedState }
  else
    let w := walkUpdates reducers rid renderLanes hook.baseState baseQueue
    let newBaseState := match w.newBase with
      | none => w.newState
      | some (bs, _) => bs
    let newBaseQueue := match w.newBase with
      | none => ([] : List (Update S A))
      | some (_, q) => q
    { hook := { memoizedState := w.newState, baseState := newBaseState,
                baseQueue := newBaseQueue },
      queue := { queue2 with lastRenderedState := w.newState },
      currentBaseQueue := baseQueue,
      skippedLanes := w.skippedLanes,
      returnedState := w.newState }

/-- Result of rerenderReducer: the work-in-progress hook and queue after
the call and the state the hook call returns. -/
structure RRResult (S A : Type) where
  hook : ReducerHook S A
  queue : UpdateQueue S A
  returnedState : S
  deriving DecidableEq

/-- Model of rerenderReducer: applies every pending render-phase update to
the work-in-progress hook state in enqueue order, with no lane check and no
eager-state reuse, then clears the pending queue.  The base state is only
updated when the carried-over base queue is empty. -/
def rerenderReducer {S A : Type} (reducers : Nat → S → A → S) (rid : Nat)
    (hook : ReducerHook S A) (queue : UpdateQueue S A) : RRResult S A :=
  let queue1 : UpdateQueue S A := { queue with lastRenderedReducer := some rid }
  let lastRenderPhaseUpdate := queue1.pending
  if lastRenderPhaseUpdate.isEmpty then
    { hook := hook, queue := queue1, returnedState := hook.memoizedState }
  else
    let newState := lastRenderPhaseUpdate.foldl
      (fun s u => reducers rid s u.action) hook.memoizedState
    { hook := { memoizedState := newState,
                baseState := if hook.baseQueue.isEmpty then newState
                             else hook.baseState,
                baseQueue := hook.baseQueue },
      queue := { queue1 with pending := [], lastRenderedState := newState },
      returnedState := newState }

/-- The fiber-level state that dispatchAction reads and writes: the fiber
lane set, the alternate fiber lane set (none when the alternate is null)
and the update queue the dispatch is bound to. -/
structure FiberState (S A : Type) where
  fiberLanes : Nat
  alt : Option Nat
  queue : UpdateQueue S A
  deriving DecidableEq

/-- Lane set of the nullable alternate fiber: the null alternate passes the
same drained-queue test as an alternate with no lanes. -/
def altLanesOf : Option Nat → Nat
  | none => NoLanes
  | some lanes => lanes

/-- Appending an update to the circular pending list (the source keeps the
pointer on the temporally last insertion; in list form this is an append at
the tail). -/
def enqueueUpdate {S A : Type} (st : FiberState S A) (u : Update S A) :
    FiberState S A :=
  { st with queue := { st.queue with pending := st.queue.pending ++ [u] } }

/-- What one dispatchAction call produced: the fiber state after the call,
whether the render-phase flags were raised, and the lane passed to
scheduleUpdateOnFiber when it was called (none when the call was skipped,
either because the update is a render-phase update or because the eager
fast path bailed out). -/
structure DispatchOut (S A : Type) where
  st : FiberState S A
  renderPhaseFlag : Bool
  scheduled : Option Nat
  deriving DecidableEq

/-- Model of dispatchAction.  targetsRendering captures the source check
that the fiber or its alternate is the currently rendering fiber.  The
source appends the update first and then mutates its eagerReducer and
eagerState fields in place before the queue is next read; the model appends
the already-completed update, which yields the same state. -/
def dispatchAction {S A : Type} [DecidableEq S] (reducers : Nat → S → A → S)
    (targetsRendering : Bool) (st : FiberState S A) (lane : Nat) (action : A) :
    DispatchOut S A :=
  let update : Update S A := { lane := lane, action := action, eager := none }
  if targetsRendering then
    { st := enqueueUpdate st update, renderPhaseFlag := true, scheduled := none }
  else
    if st.fiberLanes = NoLanes ∧ altLanesOf st.alt = NoLanes then
      match st.queue.lastRenderedReducer with
      | some lastRenderedReducer =>
          let currentState := st.queue.lastRenderedState
          let eagerState := reducers lastRenderedReducer currentState action
          let update2 : Update S A :=
            { update with eager := some (lastRenderedReducer, eagerState) }
          if objectIs eagerState currentState then
            { st := enqueueUpdate st update2, renderPhaseFlag := false,
              scheduled := none }
          else
            { st := enqueueUpdate st update2, renderPhaseFlag := false,
              scheduled := some lane }
      | none =>
          { st := enqueueUpdate st update, renderPhaseFlag := false,
            scheduled := some lane }
    else
      { st := enqueueUpdate st update, renderPhaseFlag := false,
        scheduled := some lane }

/-- Modelled from the spec: scheduleUpdateOnFiber(component, lane, time) of
the external scheduling collaborator (ReactFiberWorkLoop, not under src)
requests a render and marks the lane of the scheduled update as pending on
the fiber and on its alternate when one exists. -/
def scheduleMark {S A : Type} (st : FiberState S A) (lane : Nat) :
    FiberState S A :=
  { st with fiberLanes := mergeLanes st.fiberLanes lane,
            alt := st.alt.map (fun l => mergeLanes l lane) }

/-- One dispatch from outside the render phase followed by the scheduler
collaborator marking the lane when scheduleUpdateOnFiber was called. -/
def dispatchAndSchedule {S A : Type} [DecidableEq S]
    (reducers : Nat → S → A → S) (st : FiberState S A) (lane : Nat)
    (action : A) : FiberState S A :=
  let out := dispatchAction reducers false st lane action
  match out.scheduled with
  | some l => scheduleMark out.st l
  | none => out.st

/-- A sequence of dispatches from outside the render phase, each given as a
lane and an action, in order. -/
def dispatchSeq {S A : Type} [DecidableEq S] (reducers : Nat → S → A → S)
    (st : FiberState S A) (pairs : List (Nat × A)) : FiberState S A :=
  pairs.foldl (fun s p => dispatchAndSchedule reducers s p.1 p.2) st

/-- The committed hook and shared queue after a render attempt that ran
updateReducer and was then discarded: the work-in-progress clone is thrown
away, and only the in-place writes updateReducer performed on the committed
objects remain (the spliced baseQueue, the cleared pending list and the
updated lastRenderedReducer and lastRenderedState). -/
def abandonAttempt {S A : Type} (reducers : Nat → S → A → S)
    (rid renderLanes : Nat) (hq : ReducerHook S A × UpdateQueue S A) :
    ReducerHook S A × UpdateQueue S A :=
  let r := updateReducer reducers rid renderLanes hq.1 hq.2
  ({ hq.1 with baseQueue := r.currentBaseQueue }, r.queue)

/-- Hook record as cloned by updateWorkInProgressHook (the next pointer is
represented by list position). -/
structure HookCell (S A : Type) where
  memoizedState : S
  baseState : S
  baseQueue : List (Update S A)
  queue : Option (UpdateQueue S A)
  deriving DecidableEq

/-- The clone built by updateWorkInProgressHook from the next committed
hook: every field is copied and the next pointer starts as null. -/
def cloneHook {S A : Type} (ch : HookCell S A) : HookCell S A :=
  { memoizedState := ch.memoizedState, baseState := ch.baseState,
    baseQueue := ch.baseQueue, queue := ch.queue }

/-- Invariant message thrown when the committed hook list runs out before
the hook-call sequence does. -/
def renderedMoreHooksMessage : String :=
  "Rendered more hooks than during the previous render."

/-- Result of a successful updateWorkInProgressHook call: the hook handed
to the caller, the work-in-progress list after the call, and both advanced
cursors, counted as the number of hooks consumed from each list. -/
structure UWIPResult (S A : Type) where
  hook : HookCell S A
  wipList : List (HookCell S A)
  currentCount : Nat
  wipCount : Nat
  deriving DecidableEq

/-- Model of updateWorkInProgressHook.  currentList is the committed hook
list of the alternate fiber (empty when the alternate is null); wipList is
the list already built on the rendering fiber; the counts are the cursor
positions (number of hooks consumed so far on each list).  An existing
work-in-progress hook for this position is reused; otherwise the next
committed hook is cloned and appended, and when neither exists the call
fails with the invariant violation. -/
def updateWorkInProgressHook {S A : Type} (currentList wipList : List (HookCell S A))
    (currentCount wipCount : Nat) : Except String (UWIPResult S A) :=
  let nextCurrentHook := currentList.get? currentCount
  let nextWorkInProgressHook := wipList.get? wipCount
  match nextWorkInProgressHook with
  | some h =>
      Except.ok { hook := h, wipList := wipList,
                  currentCount := currentCount + 1, wipCount := wipCount + 1 }
  | none =>
      match nextCurrentHook with
      | none => Except.error renderedMoreHooksMessage
      | some ch =>
          let newHook := cloneHook ch
          Except.ok { hook := newHook, wipList := wipList ++ [newHook],
                      currentCount := currentCount + 1, wipCount := wipCount + 1 }

/-- The re-render bound of renderWithHooks. -/
def RE_RENDER_LIMIT : Nat := 25

/-- Invariant message thrown when the re-render counter reaches the
limit. -/
def tooManyReRendersMessage : String :=
  "Too many re-renders. React limits the number of renders to prevent an infinite loop."

/-- The do-while loop of renderWithHooks.  schedules n is true when the
n-th invocation of the component function raises
didScheduleRenderPhaseUpdateDuringThisPass (invocation 0 is the initial
render, invocation n for positive n is the n-th re-render).  The counter
argument is numberOfReRenders at the top of a loop iteration; the loop
first checks the counter against the limit, increments it, re-invokes the
component and repeats while the flag is raised again.  On success it
returns the final value of the counter, the number of re-renders
performed. -/
def rerenderLoop (schedules : Nat → Bool) (numberOfReRenders : Nat) :
    Except String Nat :=
  if h : numberOfReRenders < RE_RENDER_LIMIT then
    let n := numberOfReRenders + 1
    if schedules n then
      rerenderLoop schedules n
    else
      Except.ok n
  else
    Except.error tooManyReRendersMessage
  termination_by RE_RENDER_LIMIT - numberOfReRenders
  decreasing_by simp only [RE_RENDER_LIMIT] at h ⊢; omega

/-- The render-phase re-entrancy behavior of renderWithHooks with the
component abstracted to its scheduling behavior: the component is invoked
once, and when it scheduled a render-phase update the bounded re-render
loop runs.  Returns the number of re-renders performed, or the fatal
re-render-limit error. -/
def renderWithHooks (schedules : Nat → Bool) : Except String Nat :=
  if schedules 0 then
    rerenderLoop schedules 0
  else
    Except.ok 0

/-- The per-source tear-detection state living outside the render attempt:
the work-in-progress version recorded for the source during this render
pass (none before the first read) and the dirty mark. -/
structure MutableSourceState where
  wipVersion : Option Nat
  dirty : Bool
  deriving DecidableEq

/-- Tearing message thrown by readFromUnsubcribedMutableSource. -/
def tearingMessage : String :=
  "Cannot read from mutable source during the current render without tearing. This is a bug in React. Please file an issue."

/-- Result of a read attempt: the value returned or the error thrown, plus
the tracking state after the call. -/
structure ReadResult (V : Type) where
  result : Except String V
  ms : MutableSourceState

/-- Model of readFromUnsubcribedMutableSource.  version is the value
getVersion returns for the store right now and snapshot the value
getSnapshot would produce.  The work-in-progress version slot and the dirty
mark are modelled from the spec: getWorkInProgressVersion,
setWorkInProgressVersion and markSourceAsDirty (ReactMutableSource, not
under src) maintain a per-render-pass per-source version slot and a dirty
flag on the source. -/
def readFromUnsubcribedMutableSource {V : Type} (renderLanes mutableReadLanes : Nat)
    (version : Nat) (snapshot : V) (ms : MutableSourceState) : ReadResult V :=
  let safeAndState : Bool × MutableSourceState :=
    match ms.wipVersion with
    | some currentRenderVersion => (currentRenderVersion == version, ms)
    | none =>
        let isSafeToReadFromSource := isSubsetOfLanes renderLanes mutableReadLanes
        if isSafeToReadFromSource then
          (true, { ms with wipVersion := some version })
        else
          (false, ms)
  if safeAndState.1 then
    { result := Except.ok snapshot, ms := safeAndState.2 }
  else
    { result := Except.error tearingMessage,
      ms := { safeAndState.2 with dirty := true } }

/-- Model of areHookInputsEqual: false for a null previous dependency list,
otherwise a per-element identity comparison stopping at the shorter of the
two lengths. -/
def areHookInputsEqual {V : Type} [DecidableEq V] (nextDeps : List V)
    (prevDeps : Option (List V)) : Bool :=
  match prevDeps with
  | none => false
  | some prev => (List.zip nextDeps prev).all (fun ab => objectIs ab.1 ab.2)

/-- Effect record: create and destroy callbacks are represented by numeric
identities (the engine never calls them during render), deps is the
nullable dependency list, and the circular next pointer is represented by
list position in the effect list. -/
structure Effect (V : Type) where
  tag : Nat
  create : Nat
  destroy : Option Nat
  deps : Option (List V)
  deriving DecidableEq

/-- What one updateEffectImpl call produced: the effect pushed onto the
effect list, the flags merged into the fiber flags (0 in the skip case) and
whether hook.memoizedState was reassigned to the pushed effect. -/
structure EffImplResult (V : Type) where
  pushed : Effect V
  fiberFlagsAdded : Nat
  hookMemoUpdated : Bool
  deriving DecidableEq

/-- Model of updateEffectImpl.  currentHook carries the previous committed
effect for this position when there is one; its destroy callback is carried
over in every case.  When the new deps are non-null and shallowly equal to
the previous deps, the effect is re-pushed without the HasEffect flag and
nothing else happens; otherwise the fiber flags are set and the effect is
pushed with the HasEffect flag. -/
def updateEffectImpl {V : Type} [DecidableEq V] (fiberFlags hookFlags : Nat)
    (create : Nat) (deps : Option (List V)) (currentHook : Option (Effect V)) :
    EffImplResult V :=
  let nextDeps := deps
  let destroy : Option Nat :=
    match currentHook with
    | some prevEffect => prevEffect.destroy
    | none => none
  let skip : Bool :=
    match currentHook, nextDeps with
    | some prevEffect, some nd => areHookInputsEqual nd prevEffect.deps
    | _, _ => false
  if skip then
    { pushed := { tag := hookFlags, create := create, destroy := destroy,
                  deps := nextDeps },
      fiberFlagsAdded := 0, hookMemoUpdated := false }
  else
    { pushed := { tag := mergeLanes HookHasEffect hookFlags, create := create,
                  destroy := destroy, deps := nextDeps },
      fiberFlagsAdded := fiberFlags, hookMemoUpdated := true }

/-- The dispatcher tables the engine switches between. -/
inductive DispatcherKind where
  | mount
  | update
  | rerender
  | contextOnly
  deriving DecidableEq

/-- Clearing of the pending list of the queue of one hook, as performed by
the loop in resetHooksAfterThrow. -/
def clearPending {S A : Type} (c : HookCell S A) : HookCell S A :=
  { c with queue := c.queue.map (fun q => { q with pending := [] }) }

/-- State after resetHooksAfterThrow: the active dispatcher, the hook list
of the aborted fiber, and both render-phase-update flags. -/
structure ResetResult (S A : Type) where
  dispatcher : DispatcherKind
  hooks : List (HookCell S A)
  didScheduleRenderPhaseUpdate : Bool
  didScheduleRenderPhaseUpdateDuringThisPass : Bool
  deriving DecidableEq

/-- Model of resetHooksAfterThrow.  flag is didScheduleRenderPhaseUpdate at
the time of the throw; hooks is the memoizedState hook list of the fiber
that was rendering.  The dispatcher always becomes ContextOnly; when the
flag is set every hook queue pending list is cleared, unconditionally on
its content. -/
def resetHooksAfterThrow {S A : Type} (flag : Bool)
    (hooks : List (HookCell S A)) : ResetResult S A :=
  { dispatcher := DispatcherKind.contextOnly,
    hooks := if flag then hooks.map clearPending else hooks,
    didScheduleRenderPhaseUpdate := false,
    didScheduleRenderPhaseUpdateDuringThisPass := false }

theorem lor_ne_zero_right (a b : Nat) (h : b ≠ 0) : a ||| b ≠ 0 := by
  intro hc
  rcases Nat.exists_most_significant_bit h with ⟨i, hi, _⟩
  have h2 := congrArg (fun x => Nat.testBit x i) hc
  simp [Nat.testBit_lor, hi] at h2

/-- C6: updateWorkInProgressHook fails with the fatal invariant violation
exactly when there is neither a work-in-progress hook nor a remaining
committed hook at the current position (the committed list ran out before
the call sequence did); otherwise it returns either the existing
work-in-progress hook for the position or a clone of the next committed
hook, appended to the work-in-progress list. -/
theorem updateWorkInProgressHook_spec {S A : Type}
    (cl wl : List (HookCell S A)) (cc wc : Nat) :
    (updateWorkInProgressHook cl wl cc wc = Except.error renderedMoreHooksMessage
        ↔ (wl.length ≤ wc ∧ cl.length ≤ cc))
    ∧ (∀ h, wl.get? wc = some h →
        updateWorkInProgressHook cl wl cc wc
          = Except.ok { hook := h, wipList := wl,
                        currentCount := cc + 1, wipCount := wc + 1 })
    ∧ (wl.length ≤ wc → ∀ ch, cl.get? cc = some ch →
        updateWorkInProgressHook cl wl cc wc
          = Except.ok { hook := cloneHook ch, wipList := wl ++ [cloneHook ch],
                        currentCount := cc + 1, wipCount := wc + 1 }) := by
  refine ⟨?_, ?_, ?_⟩
  · rcases hw : wl.get? wc with _ | h0
    · rcases hc : cl.get? cc with _ | c0
      · simp only [updateWorkInProgressHook, hw, hc]
        simp [List.get?_eq_none.mp hw, List.get?_eq_none.mp hc]
      · simp only [updateWorkInProgressHook, hw, hc]
        constructor
        · intro hcontra; simp at hcontra
        · rintro ⟨-, hlen⟩
          rw [List.get?_eq_none.mpr hlen] at hc
          simp at hc
    · simp only [updateWorkInProgressHook, hw]
      constructor
      · intro hcontra; simp at hcontra
      · rintro ⟨hlen, -⟩
        rw [List.get?_eq_none.mpr hlen] at hw
        simp at hw
  · intro h hh
    simp only [updateWorkInProgressHook, hh]
  · intro hlen ch hch
    have hw : wl.get? wc = none := List.get?_eq_none.mpr hlen
    simp only [updateWorkInProgressHook, hw, hch]

/-- Concrete update used by witnesses. -/
def exUpdate1 : Update Int Int := { lane := 1, action := 5, eager := none }

/-- Concrete queue used by witnesses. -/
def exQueue1 : UpdateQueue Int Int :=
  { pending := [exUpdate1], lastRenderedReducer := some 0, lastRenderedState := 0 }

/-- Concrete hook cell used by witnesses. -/
def exCell1 : HookCell Int Int :=
  { memoizedState := 0, baseState := 0, baseQueue := [], queue := some exQueue1 }

theorem updateWorkInProgressHook_spec_witness :
    (([] : List (HookCell Int Int)).length ≤ 0 ∧
      ([] : List (HookCell Int Int)).length ≤ 0) ∧
    updateWorkInProgressHook ([] : List (HookCell Int Int)) [] 0 0
      = Except.error renderedMoreHooksMessage :=
  ⟨⟨by decide, by decide⟩,
   (updateWorkInProgressHook_spec [] [] 0 0).1.mpr ⟨by decide, by decide⟩⟩

/-- C7: a dispatchAction call targeting the rendering fiber appends the
update to the pending queue and raises the render-phase flag without
calling scheduleUpdateOnFiber, and rerenderReducer then applies every
pending render-phase update to the work-in-progress hook state in enqueue
order, with no lane-subset check, clearing the pending queue. -/
theorem renderPhaseUpdate_spec {S A : Type} [DecidableEq S]
    (reducers : Nat → S → A → S) (rid lane : Nat) (action : A)
    (st : FiberState S A) (hook : ReducerHook S A) (queue : UpdateQueue S A) :
    (dispatchAction reducers true st lane action).st.queue.pending
        = st.queue.pending ++ [{ lane := lane, action := action, eager := none }]
    ∧ (dispatchAction reducers true st lane action).renderPhaseFlag = true
    ∧ (dispatchAction reducers true st lane action).scheduled = none
    ∧ (rerenderReducer reducers rid hook queue).returnedState
        = List.foldl (fun s u => reducers rid s u.action)
            hook.memoizedState queue.pending
    ∧ (rerenderReducer reducers rid hook queue).queue.pending = [] := by
  refine ⟨rfl, rfl, rfl, ?_, ?_⟩
  · unfold rerenderReducer
    cases hp : queue.pending with
    | nil => simp [hp, List.isEmpty]
    | cons u t => simp [hp, List.isEmpty]
  · unfold rerenderReducer
    cases hp : queue.pending with
    | nil => simp [hp, List.isEmpty]
    | cons u t => simp [hp, List.isEmpty]

/-- C10: after resetHooksAfterThrow with the render-phase-update flag set,
the dispatcher is ContextOnly and every hook queue pending list on the
aborted fiber is empty, whatever updates it held. -/
theorem resetHooksAfterThrow_spec {S A : Type} (hooks : List (HookCell S A)) :
    (resetHooksAfterThrow (S := S) (A := A) true hooks).dispatcher
        = DispatcherKind.contextOnly
    ∧ (resetHooksAfterThrow (S := S) (A := A) true hooks).hooks
        = hooks.map clearPending
    ∧ (∀ c ∈ (resetHooksAfterThrow (S := S) (A := A) true hooks).hooks,
        ∀ q, c.queue = some q → q.pending = [])
    ∧ (resetHooksAfterThrow (S := S) (A := A) true hooks).didScheduleRenderPhaseUpdate
        = false := by
  refine ⟨rfl, by simp [resetHooksAfterThrow], ?_, rfl⟩
  intro c hc q hq
  simp only [resetHooksAfterThrow, if_pos] at hc
  rcases List.mem_map.mp hc with ⟨c0, -, rfl⟩
  simp only [clearPending] at hq
  rcases Option.map_eq_some'.mp hq with ⟨q0, -, rfl⟩
  rfl

theorem resetHooksAfterThrow_spec_witness :
    (clearPending exCell1 ∈ (resetHooksAfterThrow true [exCell1]).hooks ∧
      (clearPending exCell1).queue = some { exQueue1 with pending := [] }) ∧
    ({ exQueue1 with pending := [] } : UpdateQueue Int Int).pending = [] :=
  ⟨⟨by decide, by decide⟩,
   (resetHooksAfterThrow_spec [exCell1]).2.2.1 (clearPending exCell1) (by decide)
     { exQueue1 with pending := [] } (by decide)⟩

theorem zip_all_objectIs_iff {V : Type} [DecidableEq V] :
    ∀ (next p : List V),
      ((List.zip next p).all (fun ab => objectIs ab.1 ab.2) = true)
        ↔ ∀ i a b, next.get? i = some a → p.get? i = some b →
            objectIs a b = true := by
  intro next
  induction next with
  | nil =>
      intro p
      constructor
      · intro _ i a b ha _
        simp at ha
      · intro _
        simp [List.zip]
  | cons a t ih =>
      intro p
      cases p with
      | nil =>
          constructor
          · intro _ i x y _ hy
            simp at hy
          · intro _
            simp [List.zip]
      | cons b pt =>
          simp only [List.zip_cons_cons, List.all_cons, Bool.and_eq_true]
          constructor
          · rintro ⟨h1, h2⟩ i x y hx hy
            cases i with
            | zero =>
                simp only [List.get?_cons_zero] at hx hy
                injection hx with hx
                injection hy with hy
                subst hx; subst hy
                exact h1
            | succ n =>
                simp only [List.get?_cons_succ] at hx hy
                exact (ih pt).mp h2 n x y hx hy
          · intro hall
            refine ⟨hall 0 a b rfl rfl, (ih pt).mpr ?_⟩
            intro n x y hx hy
            exact hall (n + 1) x y hx hy

/-- C8: the dependency comparison of update-phase effects returns true
exactly when the previous dependency list is non-null and every position up
to the shorter of the two lengths is identical under the
identity-with-NaN-equal comparison; when it returns true the effect is
re-pushed without the HasEffect flag with the previous cleanup carried
over and nothing else happens, and a null dependency list always reruns
the effect. -/
theorem updateEffectImpl_deps_spec {V : Type} [DecidableEq V] :
    (∀ (next : List V) (prev : Option (List V)),
        areHookInputsEqual next prev = true
          ↔ ∃ p, prev = some p ∧ ∀ i a b, next.get? i = some a →
              p.get? i = some b → objectIs a b = true)
    ∧ (∀ (fiberFlags hookFlags create : Nat) (prevEffect : Effect V)
          (nd : List V),
        areHookInputsEqual nd prevEffect.deps = true →
        updateEffectImpl fiberFlags hookFlags create (some nd) (some prevEffect)
          = { pushed := { tag := hookFlags, create := create,
                          destroy := prevEffect.destroy, deps := some nd },
              fiberFlagsAdded := 0, hookMemoUpdated := false })
    ∧ (∀ (fiberFlags hookFlags create : Nat) (prevEffect : Effect V),
        updateEffectImpl fiberFlags hookFlags create none (some prevEffect)
          = { pushed := { tag := mergeLanes HookHasEffect hookFlags,
                          create := create, destroy := prevEffect.destroy,
                          deps := none },
              fiberFlagsAdded := fiberFlags, hookMemoUpdated := true }) := by
  refine ⟨?_, ?_, ?_⟩
  · intro next prev
    cases prev with
    | none => simp [areHookInputsEqual]
    | some p =>
        simp only [areHookInputsEqual]
        rw [zip_all_objectIs_iff next p]
        constructor
        · intro h; exact ⟨p, rfl, h⟩
        · rintro ⟨p2, hp, h⟩
          injection hp with hp
          subst hp
          exact h
  · intro fiberFlags hookFlags create prevEffect nd h
    simp only [updateEffectImpl, h]
    rfl
  · intro fiberFlags hookFlags create prevEffect
    rfl

/-- Concrete previous effect used by the C8 witness. -/
def exPrevEffect : Effect JSVal :=
  { tag := 5, create := 1, destroy := some 2, deps := some [JSVal.nan] }

theorem updateEffectImpl_deps_spec_witness :
    areHookInputsEqual [JSVal.nan] exPrevEffect.deps = true ∧
    updateEffectImpl 3 4 1 (some [JSVal.nan]) (some exPrevEffect)
      = { pushed := { tag := 4, create := 1, destroy := some 2,
                      deps := some [JSVal.nan] },
          fiberFlagsAdded := 0, hookMemoUpdated := false } :=
  ⟨by decide, updateEffectImpl_deps_spec.2.1 3 4 1 exPrevEffect [JSVal.nan] (by decide)⟩

/-- C4: readFromUnsubcribedMutableSource performs the read and returns the
snapshot exactly when either a work-in-progress version is already recorded
for the source and equals the current version, or no version is recorded
yet and the render lanes are a superset of the mutable-read lanes of the
root, in which case the version is recorded first; in every other case the
source is marked dirty and the non-recoverable tearing error is thrown. -/
theorem readFromUnsubcribedMutableSource_spec {V : Type}
    (renderLanes mutableReadLanes version : Nat) (snapshot : V)
    (ms : MutableSourceState) :
    ((readFromUnsubcribedMutableSource renderLanes mutableReadLanes version
        snapshot ms).result = Except.ok snapshot
      ↔ (ms.wipVersion = some version
          ∨ (ms.wipVersion = none
              ∧ isSubsetOfLanes renderLanes mutableReadLanes = true)))
    ∧ (ms.wipVersion = none →
        isSubsetOfLanes renderLanes mutableReadLanes = true →
        (readFromUnsubcribedMutableSource renderLanes mutableReadLanes version
            snapshot ms).ms.wipVersion = some version
        ∧ (readFromUnsubcribedMutableSource renderLanes mutableReadLanes version
            snapshot ms).ms.dirty = ms.dirty)
    ∧ (¬(ms.wipVersion = some version
          ∨ (ms.wipVersion = none
              ∧ isSubsetOfLanes renderLanes mutableReadLanes = true)) →
        (readFromUnsubcribedMutableSource renderLanes mutableReadLanes version
            snapshot ms).result = Except.error tearingMessage
        ∧ (readFromUnsubcribedMutableSource renderLanes mutableReadLanes version
            snapshot ms).ms.dirty = true) := by
  rcases ms with ⟨wip, dirty⟩
  cases wip with
  | some v =>
      by_cases hv : v = version
      · subst hv
        simp [readFromUnsubcribedMutableSource]
      · refine ⟨?_, ?_, ?_⟩
        · simp [readFromUnsubcribedMutableSource, hv, Ne.symm hv]
        · intro hcontra; simp at hcontra
        · intro _
          simp [readFromUnsubcribedMutableSource, hv]
  | none =>
      by_cases hs : isSubsetOfLanes renderLanes mutableReadLanes = true
      · simp [readFromUnsubcribedMutableSource, hs]
      · refine ⟨?_, ?_, ?_⟩
        · simp [readFromUnsubcribedMutableSource, hs]
        · intro _ hcontra; exact absurd hcontra hs
        · intro _
          simp [readFromUnsubcribedMutableSource, hs]

theorem readFromUnsubcribedMutableSource_spec_witness :
    (¬((some 5 : Option Nat) = some 6
        ∨ ((some 5 : Option Nat) = none ∧ isSubsetOfLanes 1 2 = true))) ∧
    ((readFromUnsubcribedMutableSource 1 2 6 (0 : Int)
        { wipVersion := some 5, dirty := false }).result
      = Except.error tearingMessage
    ∧ (readFromUnsubcribedMutableSource 1 2 6 (0 : Int)
        { wipVersion := some 5, dirty := false }).ms.dirty = true) :=
  ⟨by decide,
   (readFromUnsubcribedMutableSource_spec 1 2 6 (0 : Int)
      { wipVersion := some 5, dirty := false }).2.2 (by decide)⟩

theorem rerenderLoop_stops (k : Nat) (hk : k ≤ 24) :
    ∀ j n, k - n = j → n ≤ k →
      rerenderLoop (fun i => decide (i ≤ k)) n = Except.ok (k + 1) := by
  intro j
  induction j with
  | zero =>
      intro n hj hn
      have hnk : n = k := by omega
      subst hnk
      rw [rerenderLoop]
      have h1 : n < RE_RENDER_LIMIT := by
        simp only [RE_RENDER_LIMIT]; omega
      rw [dif_pos h1]
      have h2 : decide (n + 1 ≤ n) = false := by simp
      simp only [h2, Bool.false_eq_true, if_false]
  | succ m ih =>
      intro n hj hn
      have hnk : n < k := by omega
      rw [rerenderLoop]
      have h1 : n < RE_RENDER_LIMIT := by
        simp only [RE_RENDER_LIMIT]; omega
      rw [dif_pos h1]
      have h2 : decide (n + 1 ≤ k) = true := by simp; omega
      simp only [h2, if_true]
      exact ih (n + 1) (by omega) (by omega)

theorem rerenderLoop_always (j : Nat) :
    ∀ n, RE_RENDER_LIMIT - n = j →
      rerenderLoop (fun _ => true) n = Except.error tooManyReRendersMessage := by
  induction j with
  | zero =>
      intro n hj
      rw [rerenderLoop]
      have h1 : ¬(n < RE_RENDER_LIMIT) := by omega
      rw [dif_neg h1]
  | succ m ih =>
      intro n hj
      rw [rerenderLoop]
      have h1 : n < RE_RENDER_LIMIT := by omega
      rw [dif_pos h1]
      simp only [if_true]
      exact ih (n + 1) (by omega)

theorem rerenderLoop_bounded (j : Nat) :
    ∀ n schedules m, RE_RENDER_LIMIT - n = j →
      rerenderLoop schedules n = Except.ok m → m ≤ RE_RENDER_LIMIT := by
  induction j with
  | zero =>
      intro n schedules m hj hok
      rw [rerenderLoop] at hok
      have h1 : ¬(n < RE_RENDER_LIMIT) := by omega
      rw [dif_neg h1] at hok
      simp at hok
  | succ m2 ih =>
      intro n schedules m hj hok
      rw [rerenderLoop] at hok
      have h1 : n < RE_RENDER_LIMIT := by omega
      rw [dif_pos h1] at hok
      by_cases hs : schedules (n + 1) = true
      · rw [if_pos hs] at hok
        exact ih (n + 1) schedules m (by omega) hok
      · rw [if_neg hs] at hok
        injection hok with hok
        omega

/-- C5: the render-phase re-invocation loop of renderWithHooks is bounded.
A component that raises the render-phase flag on the initial render and on
re-renders 1 through k for any k up to 24 and then stops completes
successfully after k plus one re-renders; a component whose every
invocation raises the flag fails deterministically with the fatal
too-many-re-renders error; and a successful run never performs more than
RE_RENDER_LIMIT re-renders. -/
theorem renderWithHooks_reRenderLimit :
    (∀ k, 1 ≤ k → k ≤ 24 →
        renderWithHooks (fun i => decide (i ≤ k)) = Except.ok (k + 1))
    ∧ renderWithHooks (fun _ => true) = Except.error tooManyReRendersMessage
    ∧ (∀ schedules m, renderWithHooks schedules = Except.ok m →
        m ≤ RE_RENDER_LIMIT) := by
  refine ⟨?_, ?_, ?_⟩
  · intro k h1 hk
    have h0 : decide (0 ≤ k) = true := by simp
    simp only [renderWithHooks, h0, if_true]
    exact rerenderLoop_stops k hk (k - 0) 0 rfl (by omega)
  · simp only [renderWithHooks, if_true]
    exact rerenderLoop_always (RE_RENDER_LIMIT - 0) 0 rfl
  · intro schedules m hok
    simp only [renderWithHooks] at hok
    by_cases hs : schedules 0 = true
    · rw [if_pos hs] at hok
      exact rerenderLoop_bounded (RE_RENDER_LIMIT - 0) 0 schedules m rfl hok
    · rw [if_neg hs] at hok
      injection hok with hok
      simp only [RE_RENDER_LIMIT]
      omega

theorem renderWithHooks_reRenderLimit_witness :
    (1 ≤ 3 ∧ 3 ≤ 24) ∧
    renderWithHooks (fun i => decide (i ≤ 3)) = Except.ok 4 ∧
    renderWithHooks (fun _ => true) = Except.error tooManyReRendersMessage :=
  ⟨⟨by decide, by decide⟩,
   renderWithHooks_reRenderLimit.1 3 (by decide) (by decide),
   renderWithHooks_reRenderLimit.2.1⟩

theorem foldl_step_no_skip {S A : Type} (reducers : Nat → S → A → S)
    (rid renderLanes : Nat) :
    ∀ (L : List (Update S A)) (s : S) (sk : Nat),
      (∀ u ∈ L, isSubsetOfLanes renderLanes u.lane = true) →
      List.foldl (stepUpdate reducers rid renderLanes)
          { newState := s, newBase := none, skippedLanes := sk } L
        = { newState := List.foldl (applyUpdate reducers rid) s L,
            newBase := none, skippedLanes := sk } := by
  intro L
  induction L with
  | nil => intro s sk _; rfl
  | cons u t ih =>
      intro s sk hall
      have hu : isSubsetOfLanes renderLanes u.lane = true := hall u (by simp)
      simp only [List.foldl_cons]
      rw [show stepUpdate reducers rid renderLanes
            { newState := s, newBase := none, skippedLanes := sk } u
          = { newState := applyUpdate reducers rid s u, newBase := none,
              skippedLanes := sk } from by simp [stepUpdate, hu]]
      exact ih _ sk (fun v hv => hall v (by simp [hv]))

/-- Clone appended to the new base queue for an update that comes after the
first skipped update: a skipped update keeps its lane, an applied update
gets its lane cleared to NoLane. -/
def rebaseClone {S A : Type} (renderLanes : Nat) (u : Update S A) : Update S A :=
  if isSubsetOfLanes renderLanes u.lane then clearLane u else u

theorem foldl_step_after_skip {S A : Type} (reducers : Nat → S → A → S)
    (rid renderLanes : Nat) :
    ∀ (L : List (Update S A)) (s bs : S) (q : List (Update S A)) (sk : Nat),
      List.foldl (stepUpdate reducers rid renderLanes)
          { newState := s, newBase := some (bs, q), skippedLanes := sk } L
        = { newState := List.foldl (applyUpdate reducers rid) s
              (L.filter (fun u => isSubsetOfLanes renderLanes u.lane)),
            newBase := some (bs, q ++ L.map (rebaseClone renderLanes)),
            skippedLanes := List.foldl
              (fun acc u => if isSubsetOfLanes renderLanes u.lane then acc
                            else mergeLanes acc u.lane) sk L } := by
  intro L
  induction L with
  | nil => intro s bs q sk; simp
  | cons u t ih =>
      intro s bs q sk
      by_cases hu : isSubsetOfLanes renderLanes u.lane = true
      · simp only [List.foldl_cons]
        rw [show stepUpdate reducers rid renderLanes
              { newState := s, newBase := some (bs, q), skippedLanes := sk } u
            = { newState := applyUpdate reducers rid s u,
                newBase := some (bs, q ++ [clearLane u]),
                skippedLanes := sk } from by simp [stepUpdate, hu]]
        rw [ih]
        simp [List.filter_cons, hu, rebaseClone, List.append_assoc]
      · have hu2 : isSubsetOfLanes renderLanes u.lane = false :=
          Bool.eq_false_iff.mpr hu
        simp only [List.foldl_cons]
        rw [show stepUpdate reducers rid renderLanes
              { newState := s, newBase := some (bs, q), skippedLanes := sk } u
            = { newState := s, newBase := some (bs, q ++ [u]),
                skippedLanes := mergeLanes sk u.lane } from by
              simp [stepUpdate, hu2]]
        rw [ih]
        simp [List.filter_cons, hu2, rebaseClone, List.append_assoc]

theorem updateReducer_processing {S A : Type} (reducers : Nat → S → A → S)
    (rid renderLanes : Nat) (hook : ReducerHook S A) (queue : UpdateQueue S A)
    (hne : (hook.baseQueue ++ queue.pending).isEmpty = false) :
    updateReducer reducers rid renderLanes hook queue
      = (let w := walkUpdates reducers rid renderLanes hook.baseState
            (hook.baseQueue ++ queue.pending)
         { hook := { memoizedState := w.newState,
                     baseState := match w.newBase with
                       | none => w.newState
                       | some (bs, _) => bs,
                     baseQueue := match w.newBase with
                       | none => []
                       | some (_, q) => q },
           queue := { pending := [], lastRenderedReducer := some rid,
                      lastRenderedState := w.newState },
           currentBaseQueue := hook.baseQueue ++ queue.pending,
           skippedLanes := w.skippedLanes,
           returnedState := w.newState }) := by
  simp only [updateReducer, hne, Bool.false_eq_true, if_false]

/-- C2: in the updateReducer walk of the combined queue, with pre the
applied prefix before the first skipped update u, the new base state is the
state accumulated just before u, and the new base queue is u followed by
one entry per later update: a field-preserving clone for each further
skipped update and a lane-cleared clone for each applied one. -/
theorem updateReducer_skip_rebase_spec {S A : Type}
    (reducers : Nat → S → A → S) (rid renderLanes : Nat)
    (hook : ReducerHook S A) (queue : UpdateQueue S A)
    (pre post : List (Update S A)) (u : Update S A)
    (hsplit : hook.baseQueue ++ queue.pending = pre ++ u :: post)
    (hpre : ∀ v ∈ pre, isSubsetOfLanes renderLanes v.lane = true)
    (hu : isSubsetOfLanes renderLanes u.lane = false) :
    (updateReducer reducers rid renderLanes hook queue).hook.baseState
        = List.foldl (applyUpdate reducers rid) hook.baseState pre
    ∧ (updateReducer reducers rid renderLanes hook queue).hook.baseQueue
        = u :: post.map (rebaseClone renderLanes) := by
  have hne : (hook.baseQueue ++ queue.pending).isEmpty = false := by
    rw [hsplit]; cases pre <;> rfl
  rw [updateReducer_processing reducers rid renderLanes hook queue hne]
  simp only [walkUpdates, hsplit]
  rw [List.foldl_append]
  rw [foldl_step_no_skip reducers rid renderLanes pre hook.baseState NoLanes hpre]
  simp only [List.foldl_cons]
  rw [show stepUpdate reducers rid renderLanes
        { newState := List.foldl (applyUpdate reducers rid) hook.baseState pre,
          newBase := none, skippedLanes := NoLanes } u
      = { newState := List.foldl (applyUpdate reducers rid) hook.baseState pre,
          newBase := some (List.foldl (applyUpdate reducers rid) hook.baseState pre, [u]),
          skippedLanes := mergeLanes NoLanes u.lane } from by
        simp [stepUpdate, hu]]
  rw [foldl_step_after_skip]
  simp

/-- Concrete updates used by the C2 witness: an applied update, a skipped
update at a foreign lane, then one further applied and one further skipped
update. -/
def exPre2 : List (Update Int Int) := [{ lane := 1, action := 2, eager := none }]

/-- Concrete first skipped update for the C2 witness. -/
def exSkip2 : Update Int Int := { lane := 2, action := 10, eager := none }

/-- Concrete suffix for the C2 witness. -/
def exPost2 : List (Update Int Int) :=
  [{ lane := 1, action := 3, eager := none },
   { lane := 2, action := 20, eager := none }]

/-- Concrete hook for the C2 witness. -/
def exHook2 : ReducerHook Int Int :=
  { memoizedState := 0, baseState := 0, baseQueue := [] }

/-- Concrete queue for the C2 witness. -/
def exQueue2 : UpdateQueue Int Int :=
  { pending := exPre2 ++ exSkip2 :: exPost2,
    lastRenderedReducer := some 0, lastRenderedState := 0 }

theorem updateReducer_skip_rebase_spec_witness :
    (exHook2.baseQueue ++ exQueue2.pending = exPre2 ++ exSkip2 :: exPost2
      ∧ (∀ v ∈ exPre2, isSubsetOfLanes 1 v.lane = true)
      ∧ isSubsetOfLanes 1 exSkip2.lane = false) ∧
    ((updateReducer (fun _ s a => s + a) 0 1 exHook2 exQueue2).hook.baseState
        = List.foldl (applyUpdate (fun _ s a => s + a) 0) exHook2.baseState exPre2
    ∧ (updateReducer (fun _ s a => s + a) 0 1 exHook2 exQueue2).hook.baseQueue
        = exSkip2 :: exPost2.map (rebaseClone 1)) :=
  ⟨⟨by decide, by decide, by decide⟩,
   updateReducer_skip_rebase_spec (fun _ s a => s + a) 0 1 exHook2 exQueue2
     exPre2 exPost2 exSkip2 (by decide) (by decide) (by decide)⟩

theorem updateReducer_commit_writes {S A : Type} (reducers : Nat → S → A → S)
    (rid renderLanes : Nat) (hook : ReducerHook S A) (queue : UpdateQueue S A) :
    (updateReducer reducers rid renderLanes hook queue).currentBaseQueue
        = hook.baseQueue ++ queue.pending
    ∧ (updateReducer reducers rid renderLanes hook queue).queue.pending = [] := by
  constructor <;> (simp only [updateReducer]; split <;> rfl)

/-- Concrete hook for the C9 counterexample. -/
def exHook9 : ReducerHook Int Int :=
  { memoizedState := 0, baseState := 0, baseQueue := [] }

/-- Concrete queue for the C9 counterexample. -/
def exQueue9 : UpdateQueue Int Int :=
  { pending := [{ lane := 1, action := 5, eager := none }],
    lastRenderedReducer := some 0, lastRenderedState := 0 }

/-- C9 counterexample: updateReducer does mutate a committed object in
place.  With one pending update it stores the merged list into the
committed hook baseQueue (the source line current.baseQueue = pendingQueue),
so the committed hook baseQueue after the call differs from its value
before the call. -/
theorem updateReducer_mutates_committed_counterexample :
    (updateReducer (fun _ s a => s + a) 0 1 exHook9 exQueue9).currentBaseQueue
      ≠ exHook9.baseQueue := by decide

/-- C9 amended: updateReducer does write to the committed objects, but only
by splicing the pending list onto the committed hook baseQueue and clearing
the shared queue pending list, which loses no update; the committed
memoizedState and baseState are untouched, and discarding the
work-in-progress attempt is safe: re-running updateReducer on what remains
of the committed hook and queue returns the same state and builds the same
work-in-progress hook as the discarded attempt. -/
theorem updateReducer_abandon_safe {S A : Type} (reducers : Nat → S → A → S)
    (rid renderLanes : Nat) (hook : ReducerHook S A) (queue : UpdateQueue S A) :
    (updateReducer reducers rid renderLanes hook queue).currentBaseQueue
        = hook.baseQueue ++ queue.pending
    ∧ (updateReducer reducers rid renderLanes hook queue).queue.pending = []
    ∧ (abandonAttempt reducers rid renderLanes (hook, queue)).1.memoizedState
        = hook.memoizedState
    ∧ (abandonAttempt reducers rid renderLanes (hook, queue)).1.baseState
        = hook.baseState
    ∧ (updateReducer reducers rid renderLanes
          (abandonAttempt reducers rid renderLanes (hook, queue)).1
          (abandonAttempt reducers rid renderLanes (hook, queue)).2).returnedState
        = (updateReducer reducers rid renderLanes hook queue).returnedState
    ∧ (updateReducer reducers rid renderLanes
          (abandonAttempt reducers rid renderLanes (hook, queue)).1
          (abandonAttempt reducers rid renderLanes (hook, queue)).2).hook
        = (updateReducer reducers rid renderLanes hook queue).hook := by
  obtain ⟨hcb, hcp⟩ := updateReducer_commit_writes reducers rid renderLanes hook queue
  have hab1 : (abandonAttempt reducers rid renderLanes (hook, queue)).1
      = { hook with baseQueue := hook.baseQueue ++ queue.pending } := by
    simp only [abandonAttempt]
    rw [hcb]
  have hab2 : (abandonAttempt reducers rid renderLanes (hook, queue)).2.pending
      = [] := hcp
  refine ⟨hcb, hcp, by rw [hab1], by rw [hab1], ?_⟩
  by_cases he : (hook.baseQueue ++ queue.pending).isEmpty = true
  · -- the combined queue is empty: nothing was processed on either attempt
    obtain ⟨hbq, hpd⟩ :=
      List.append_eq_nil.mp (List.isEmpty_iff.mp he)
    have habh : (abandonAttempt reducers rid renderLanes (hook, queue)).1 = hook := by
      rw [hab1, hbq, hpd]
      rw [show ([] ++ [] : List (Update S A)) = hook.baseQueue from by simp [hbq]]
    have he2 : ((abandonAttempt reducers rid renderLanes (hook, queue)).1.baseQueue
        ++ (abandonAttempt reducers rid renderLanes (hook, queue)).2.pending).isEmpty
        = true := by
      rw [habh, hbq, hab2]
      rfl
    constructor
    · simp only [updateReducer, he, he2, if_true]
      rw [habh]
    · simp only [updateReducer, he, he2, if_true]
      rw [habh]
  · have hne : (hook.baseQueue ++ queue.pending).isEmpty = false :=
      Bool.eq_false_iff.mpr he
    have hcomb2 : (abandonAttempt reducers rid renderLanes (hook, queue)).1.baseQueue
        ++ (abandonAttempt reducers rid renderLanes (hook, queue)).2.pending
        = hook.baseQueue ++ queue.pending := by
      rw [hab1, hab2]
      simp
    have hne2 : ((abandonAttempt reducers rid renderLanes (hook, queue)).1.baseQueue
        ++ (abandonAttempt reducers rid renderLanes (hook, queue)).2.pending).isEmpty
        = false := by
      rw [hcomb2]; exact hne
    rw [updateReducer_processing reducers rid renderLanes hook queue hne,
        updateReducer_processing reducers rid renderLanes _ _ hne2]
    rw [hcomb2, show (abandonAttempt reducers rid renderLanes (hook, queue)).1.baseState
          = hook.baseState from by rw [hab1]]
    exact ⟨rfl, rfl⟩

theorem dispatchAndSchedule_eager_bail {S A : Type} [DecidableEq S]
    (reducers : Nat → S → A → S) (rid : Nat) (st : FiberState S A)
    (l : Nat) (a : A)
    (hcond : st.fiberLanes = NoLanes ∧ altLanesOf st.alt = NoLanes)
    (hr : st.queue.lastRenderedReducer = some rid)
    (hise : objectIs (reducers rid st.queue.lastRenderedState a)
        st.queue.lastRenderedState = true) :
    dispatchAndSchedule reducers st l a
      = enqueueUpdate st
          { lane := l, action := a,
            eager := some (rid, reducers rid st.queue.lastRenderedState a) } := by
  simp only [dispatchAndSchedule, dispatchAction, Bool.false_eq_true, if_false,
    if_pos hcond, hr, hise, if_true]

theorem dispatchAndSchedule_eager_sched {S A : Type} [DecidableEq S]
    (reducers : Nat → S → A → S) (rid : Nat) (st : FiberState S A)
    (l : Nat) (a : A)
    (hcond : st.fiberLanes = NoLanes ∧ altLanesOf st.alt = NoLanes)
    (hr : st.queue.lastRenderedReducer = some rid)
    (hise : objectIs (reducers rid st.queue.lastRenderedState a)
        st.queue.lastRenderedState = false) :
    dispatchAndSchedule reducers st l a
      = scheduleMark
          (enqueueUpdate st
            { lane := l, action := a,
              eager := some (rid, reducers rid st.queue.lastRenderedState a) })
          l := by
  simp only [dispatchAndSchedule, dispatchAction, Bool.false_eq_true, if_false,
    if_pos hcond, hr, hise]

theorem dispatchAndSchedule_plain {S A : Type} [DecidableEq S]
    (reducers : Nat → S → A → S) (st : FiberState S A) (l : Nat) (a : A)
    (hcond : ¬(st.fiberLanes = NoLanes ∧ altLanesOf st.alt = NoLanes)) :
    dispatchAndSchedule reducers st l a
      = scheduleMark (enqueueUpdate st { lane := l, action := a, eager := none }) l := by
  simp only [dispatchAndSchedule, dispatchAction, Bool.false_eq_true, if_false,
    if_neg hcond]

/-- C3: a dispatchAction call on a fiber that is not rendering, whose fiber
and alternate both have no pending lanes and whose queue has a last
rendered reducer, applies the action eagerly to lastRenderedState with that
reducer and caches the result on the update as eagerReducer and eagerState;
when the eager result equals the prior state under the
identity-with-NaN-equal comparison the call returns without calling
scheduleUpdateOnFiber, and otherwise scheduleUpdateOnFiber is called with
the update lane. -/
theorem dispatchAction_eager_spec {S A : Type} [DecidableEq S]
    (reducers : Nat → S → A → S) (rid lane : Nat) (action : A)
    (st : FiberState S A)
    (h1 : st.fiberLanes = NoLanes)
    (h2 : altLanesOf st.alt = NoLanes)
    (h3 : st.queue.lastRenderedReducer = some rid) :
    (dispatchAction reducers false st lane action).st.queue.pending
        = st.queue.pending ++
            [{ lane := lane, action := action,
               eager := some (rid, reducers rid st.queue.lastRenderedState action) }]
    ∧ (objectIs (reducers rid st.queue.lastRenderedState action)
          st.queue.lastRenderedState = true →
        (dispatchAction reducers false st lane action).scheduled = none)
    ∧ (objectIs (reducers rid st.queue.lastRenderedState action)
          st.queue.lastRenderedState = false →
        (dispatchAction reducers false st lane action).scheduled = some lane) := by
  have hcond : st.fiberLanes = NoLanes ∧ altLanesOf st.alt = NoLanes := ⟨h1, h2⟩
  simp only [dispatchAction, Bool.false_eq_true, if_false, if_pos hcond, h3]
  by_cases hx : objectIs (reducers rid st.queue.lastRenderedState action)
      st.queue.lastRenderedState = true
  · rw [if_pos hx]
    refine ⟨rfl, fun _ => rfl, fun hf => ?_⟩
    rw [hx] at hf
    exact absurd hf (by simp)
  · rw [if_neg hx]
    exact ⟨rfl, fun ht => absurd ht hx, fun _ => rfl⟩

/-- Concrete fiber state for the C3 witness: a drained fiber whose last
rendered state is NaN. -/
def exStNaN : FiberState JSVal JSVal :=
  { fiberLanes := 0, alt := none,
    queue := { pending := [], lastRenderedReducer := some 0,
               lastRenderedState := JSVal.nan } }

theorem dispatchAction_eager_spec_witness :
    (exStNaN.fiberLanes = NoLanes ∧ altLanesOf exStNaN.alt = NoLanes
      ∧ exStNaN.queue.lastRenderedReducer = some 0
      ∧ objectIs ((fun _ _ a => a : Nat → JSVal → JSVal → JSVal) 0
            exStNaN.queue.lastRenderedState JSVal.nan)
          exStNaN.queue.lastRenderedState = true) ∧
    (dispatchAction (fun _ _ a => a) false exStNaN 1 JSVal.nan).scheduled = none :=
  ⟨⟨by decide, by decide, by decide, by decide⟩,
   (dispatchAction_eager_spec (fun _ _ a => a) 0 1 JSVal.nan exStNaN
      (by decide) (by decide) (by decide)).2.1 (by decide)⟩

theorem dispatchStep_spec {S A : Type} [DecidableEq S]
    (reducers : Nat → S → A → S) (rid : Nat) (s0 : S) (st : FiberState S A)
    (l : Nat) (a : A)
    (hr : st.queue.lastRenderedReducer = some rid)
    (hs : st.queue.lastRenderedState = s0)
    (hz : st.fiberLanes = NoLanes →
      List.foldl (applyUpdate reducers rid) s0 st.queue.pending = s0)
    (hl : l ≠ 0) :
    (dispatchAndSchedule reducers st l a).queue.lastRenderedReducer = some rid
    ∧ (dispatchAndSchedule reducers st l a).queue.lastRenderedState = s0
    ∧ ((dispatchAndSchedule reducers st l a).fiberLanes = NoLanes →
        List.foldl (applyUpdate reducers rid) s0
          (dispatchAndSchedule reducers st l a).queue.pending = s0)
    ∧ List.foldl (applyUpdate reducers rid) s0
        (dispatchAndSchedule reducers st l a).queue.pending
      = reducers rid (List.foldl (applyUpdate reducers rid) s0 st.queue.pending) a
    ∧ (dispatchAndSchedule reducers st l a).queue.pending.map (fun u => u.lane)
      = st.queue.pending.map (fun u => u.lane) ++ [l] := by
  by_cases hcond : st.fiberLanes = NoLanes ∧ altLanesOf st.alt = NoLanes
  · have hfold0 : List.foldl (applyUpdate reducers rid) s0 st.queue.pending = s0 :=
      hz hcond.1
    by_cases hise : objectIs (reducers rid st.queue.lastRenderedState a)
        st.queue.lastRenderedState = true
    · rw [dispatchAndSchedule_eager_bail reducers rid st l a hcond hr hise]
      have he : reducers rid st.queue.lastRenderedState a
          = st.queue.lastRenderedState := of_decide_eq_true hise
      refine ⟨hr, hs, ?_, ?_, ?_⟩
      · intro _
        rw [show (enqueueUpdate st
              { lane := l, action := a,
                eager := some (rid, reducers rid st.queue.lastRenderedState a) }).queue.pending
            = st.queue.pending ++
              [{ lane := l, action := a,
                 eager := some (rid, reducers rid st.queue.lastRenderedState a) }] from rfl]
        rw [List.foldl_append, hfold0]
        simp only [List.foldl_cons, List.foldl_nil, applyUpdate, if_pos rfl]
        simp only [if_true]
        rw [he, hs]
      · rw [show (enqueueUpdate st
              { lane := l, action := a,
                eager := some (rid, reducers rid st.queue.lastRenderedState a) }).queue.pending
            = st.queue.pending ++
              [{ lane := l, action := a,
                 eager := some (rid, reducers rid st.queue.lastRenderedState a) }] from rfl]
        rw [List.foldl_append, hfold0]
        simp only [List.foldl_cons, List.foldl_nil, applyUpdate, if_pos rfl]
        simp only [if_true]
        rw [hs]
      · simp [enqueueUpdate]
    · have hise2 : objectIs (reducers rid st.queue.lastRenderedState a)
          st.queue.lastRenderedState = false := Bool.eq_false_iff.mpr hise
      rw [dispatchAndSchedule_eager_sched reducers rid st l a hcond hr hise2]
      refine ⟨hr, hs, ?_, ?_, ?_⟩
      · intro hcontra
        exact absurd hcontra (lor_ne_zero_right st.fiberLanes l hl)
      · rw [show (scheduleMark
              (enqueueUpdate st
                { lane := l, action := a,
                  eager := some (rid, reducers rid st.queue.lastRenderedState a) })
              l).queue.pending
            = st.queue.pending ++
              [{ lane := l, action := a,
                 eager := some (rid, reducers rid st.queue.lastRenderedState a) }] from rfl]
        rw [List.foldl_append, hfold0]
        simp only [List.foldl_cons, List.foldl_nil, applyUpdate, if_pos rfl]
        simp only [if_true]
        rw [hs]
      · simp [scheduleMark, enqueueUpdate]
  · rw [dispatchAndSchedule_plain reducers st l a hcond]
    refine ⟨hr, hs, ?_, ?_, ?_⟩
    · intro hcontra
      exact absurd hcontra (lor_ne_zero_right st.fiberLanes l hl)
    · rw [show (scheduleMark
            (enqueueUpdate st { lane := l, action := a, eager := none })
            l).queue.pending
          = st.queue.pending ++
            [{ lane := l, action := a, eager := none }] from rfl]
      rw [List.foldl_append]
      simp only [List.foldl_cons, List.foldl_nil, applyUpdate]
    · simp [scheduleMark, enqueueUpdate]

theorem dispatchSeq_spec {S A : Type} [DecidableEq S]
    (reducers : Nat → S → A → S) (rid : Nat) (s0 : S) :
    ∀ (pairs : List (Nat × A)) (st : FiberState S A),
      st.queue.lastRenderedReducer = some rid →
      st.queue.lastRenderedState = s0 →
      (st.fiberLanes = NoLanes →
        List.foldl (applyUpdate reducers rid) s0 st.queue.pending = s0) →
      (∀ p ∈ pairs, p.1 ≠ 0) →
      ((dispatchSeq reducers st pairs).queue.lastRenderedReducer = some rid
      ∧ (dispatchSeq reducers st pairs).queue.lastRenderedState = s0
      ∧ ((dispatchSeq reducers st pairs).fiberLanes = NoLanes →
          List.foldl (applyUpdate reducers rid) s0
            (dispatchSeq reducers st pairs).queue.pending = s0)
      ∧ List.foldl (applyUpdate reducers rid) s0
          (dispatchSeq reducers st pairs).queue.pending
        = List.foldl (fun s p => reducers rid s p.2)
            (List.foldl (applyUpdate reducers rid) s0 st.queue.pending) pairs
      ∧ (dispatchSeq reducers st pairs).queue.pending.map (fun u => u.lane)
        = st.queue.pending.map (fun u => u.lane) ++ pairs.map (fun p => p.1)) := by
  intro pairs
  induction pairs with
  | nil =>
      intro st hr hs hz _
      exact ⟨hr, hs, hz, rfl, by simp [dispatchSeq]⟩
  | cons p t ih =>
      intro st hr hs hz hlanes
      have hl1 : p.1 ≠ 0 := hlanes p (List.mem_cons_self p t)
      obtain ⟨a1, a2, a3, a4, a5⟩ :=
        dispatchStep_spec reducers rid s0 st p.1 p.2 hr hs hz hl1
      obtain ⟨b1, b2, b3, b4, b5⟩ :=
        ih (dispatchAndSchedule reducers st p.1 p.2) a1 a2 a3
          (fun q hq => hlanes q (List.mem_cons_of_mem p hq))
      have hfold : dispatchSeq reducers st (p :: t)
          = dispatchSeq reducers (dispatchAndSchedule reducers st p.1 p.2) t := by
        simp only [dispatchSeq, List.foldl_cons]
      rw [hfold]
      refine ⟨b1, b2, b3, ?_, ?_⟩
      · rw [b4, a4]
        simp only [List.foldl_cons]
      · rw [b5, a5]
        simp [List.append_assoc]

theorem updateReducer_all_applied {S A : Type} (reducers : Nat → S → A → S)
    (rid renderLanes : Nat) (hook : ReducerHook S A) (queue : UpdateQueue S A)
    (hmb : hook.memoizedState = hook.baseState)
    (hall : ∀ u ∈ hook.baseQueue ++ queue.pending,
        isSubsetOfLanes renderLanes u.lane = true) :
    (updateReducer reducers rid renderLanes hook queue).returnedState
      = List.foldl (applyUpdate reducers rid) hook.baseState
          (hook.baseQueue ++ queue.pending) := by
  by_cases he : (hook.baseQueue ++ queue.pending).isEmpty = true
  · have hnil := List.isEmpty_iff.mp he
    simp only [updateReducer, he, if_true]
    rw [hnil, List.foldl_nil]
    exact hmb
  · have hne : (hook.baseQueue ++ queue.pending).isEmpty = false :=
      Bool.eq_false_iff.mpr he
    rw [updateReducer_processing reducers rid renderLanes hook queue hne]
    rw [show walkUpdates reducers rid renderLanes hook.baseState
          (hook.baseQueue ++ queue.pending)
        = { newState := List.foldl (applyUpdate reducers rid) hook.baseState
              (hook.baseQueue ++ queue.pending),
            newBase := none, skippedLanes := NoLanes } from by
      rw [walkUpdates]
      exact foldl_step_no_skip reducers rid renderLanes _ _ _ hall]

theorem abandonIter_invariant {S A : Type} (reducers : Nat → S → A → S)
    (rid renderLanes : Nat) (s0 : S) (P0 : List (Update S A)) :
    ∀ (n : Nat) (hq : ReducerHook S A × UpdateQueue S A),
      hq.1.memoizedState = s0 → hq.1.baseState = s0 →
      hq.1.baseQueue ++ hq.2.pending = P0 →
      (((abandonAttempt reducers rid renderLanes)^[n] hq).1.memoizedState = s0
      ∧ ((abandonAttempt reducers rid renderLanes)^[n] hq).1.baseState = s0
      ∧ ((abandonAttempt reducers rid renderLanes)^[n] hq).1.baseQueue
          ++ ((abandonAttempt reducers rid renderLanes)^[n] hq).2.pending = P0) := by
  intro n
  induction n with
  | zero => intro hq h1 h2 h3; exact ⟨h1, h2, h3⟩
  | succ m ih =>
      intro hq h1 h2 h3
      rw [Function.iterate_succ_apply]
      obtain ⟨hcb, hcp⟩ :=
        updateReducer_commit_writes reducers rid renderLanes hq.1 hq.2
      apply ih
      · exact h1
      · exact h2
      · have e1 : (abandonAttempt reducers rid renderLanes hq).1.baseQueue
            = hq.1.baseQueue ++ hq.2.pending := hcb
        have e2 : (abandonAttempt reducers rid renderLanes hq).2.pending = [] := hcp
        rw [e1, e2, List.append_nil, h3]

/-- C1: starting from a fully drained hook and fiber, for any sequence of
dispatchAction calls from outside the render phase whose lanes are nonzero
and all included in the render lane set, the state returned by
updateReducer equals the left fold of the reducer over the actions in
enqueue order starting from the hook base state, regardless of how many
discarded render attempts ran updateReducer before the one that
completes. -/
theorem updateReducer_foldl_of_dispatches {S A : Type} [DecidableEq S]
    (reducers : Nat → S → A → S) (rid renderLanes : Nat) (s0 : S)
    (alt0 : Option Nat) (pairs : List (Nat × A)) (n : Nat)
    (hlanes : ∀ p ∈ pairs, p.1 ≠ 0 ∧ isSubsetOfLanes renderLanes p.1 = true) :
    (updateReducer reducers rid renderLanes
        ((abandonAttempt reducers rid renderLanes)^[n]
          ({ memoizedState := s0, baseState := s0, baseQueue := [] },
            (dispatchSeq reducers
              { fiberLanes := NoLanes, alt := alt0,
                queue := { pending := [], lastRenderedReducer := some rid,
                           lastRenderedState := s0 } } pairs).queue)).1
        ((abandonAttempt reducers rid renderLanes)^[n]
          ({ memoizedState := s0, baseState := s0, baseQueue := [] },
            (dispatchSeq reducers
              { fiberLanes := NoLanes, alt := alt0,
                queue := { pending := [], lastRenderedReducer := some rid,
                           lastRenderedState := s0 } } pairs).queue)).2).returnedState
      = List.foldl (fun s p => reducers rid s p.2) s0 pairs := by
  obtain ⟨-, -, -, c4, c5⟩ := dispatchSeq_spec reducers rid s0 pairs
    { fiberLanes := NoLanes, alt := alt0,
      queue := { pending := [], lastRenderedReducer := some rid,
                 lastRenderedState := s0 } }
    rfl rfl (fun _ => rfl) (fun p hp => (hlanes p hp).1)
  simp only [List.foldl_nil] at c4
  simp only [List.map_nil, List.nil_append] at c5
  have hall : ∀ u ∈ (dispatchSeq reducers
      { fiberLanes := NoLanes, alt := alt0,
        queue := { pending := [], lastRenderedReducer := some rid,
                   lastRenderedState := s0 } } pairs).queue.pending,
      isSubsetOfLanes renderLanes u.lane = true := by
    intro u hu
    have hmem : u.lane ∈ ((dispatchSeq reducers
        { fiberLanes := NoLanes, alt := alt0,
          queue := { pending := [], lastRenderedReducer := some rid,
                     lastRenderedState := s0 } } pairs).queue.pending).map
        (fun u2 => u2.lane) := List.mem_map_of_mem _ hu
    rw [c5] at hmem
    rcases List.mem_map.mp hmem with ⟨p, hp, hpe⟩
    rw [← hpe]
    exact (hlanes p hp).2
  obtain ⟨i1, i2, i3⟩ := abandonIter_invariant reducers rid renderLanes s0
    (dispatchSeq reducers
      { fiberLanes := NoLanes, alt := alt0,
        queue := { pending := [], lastRenderedReducer := some rid,
                   lastRenderedState := s0 } } pairs).queue.pending n
    ({ memoizedState := s0, baseState := s0, baseQueue := [] },
      (dispatchSeq reducers
        { fiberLanes := NoLanes, alt := alt0,
          queue := { pending := [], lastRenderedReducer := some rid,
                     lastRenderedState := s0 } } pairs).queue)
    rfl rfl (List.nil_append _)
  rw [updateReducer_all_applied reducers rid renderLanes _ _
    (by rw [i1, i2]) (by rw [i3]; exact hall)]
  rw [i2, i3, c4]

/-- Concrete reducer environment for the C1 witness: id 0 is integer
addition of the action onto the state. -/
def exReducers : Nat → Int → Int → Int := fun _ s a => s + a

/-- Concrete dispatch sequence for the C1 witness. -/
def exPairs1 : List (Nat × Int) := [(1, 2), (1, 3)]

theorem updateReducer_foldl_of_dispatches_witness :
    (∀ p ∈ exPairs1, p.1 ≠ 0 ∧ isSubsetOfLanes 1 p.1 = true) ∧
    (updateReducer exReducers 0 1
        ((abandonAttempt exReducers 0 1)^[1]
          ({ memoizedState := (0 : Int), baseState := 0, baseQueue := [] },
            (dispatchSeq exReducers
              { fiberLanes := NoLanes, alt := none,
                queue := { pending := [], lastRenderedReducer := some 0,
                           lastRenderedState := 0 } } exPairs1).queue)).1
        ((abandonAttempt exReducers 0 1)^[1]
          ({ memoizedState := (0 : Int), baseState := 0, baseQueue := [] },
            (dispatchSeq exReducers
              { fiberLanes := NoLanes, alt := none,
                queue := { pending := [], lastRenderedReducer := some 0,
                           lastRenderedState := 0 } } exPairs1).queue)).2).returnedState
      = List.foldl (fun s p => exReducers 0 s p.2) 0 exPairs1 :=
  ⟨by decide,
   updateReducer_foldl_of_dispatches exReducers 0 1 0 none exPairs1 1 (by decide)⟩
